import Mathlib

/-! # Verification development for the standardized IPW DiD estimator on repeated cross-sections

This file is a shallow embedding of `pydid/drdid/estimators/std_ipw_did_rc.py`.
Float arrays of length `n` are modelled as functions `Fin n → ℚ`, the covariate
matrix as `Fin n → Fin k → ℚ`, and float arithmetic as exact rational
arithmetic (with the numpy convention that division by zero is total; in `ℚ`
it yields `0` where numpy would yield `NaN` or `inf`).

The external collaborators of the estimator are parameters of the embedding:

* the weighted logistic MLE solver (`statsmodels`, lines 124-133) is a function
  from the normalized observation weights to either a `PScoreFit` bundle or a
  `Unit` error standing for `np.linalg.LinAlgError`; a fitted coefficient that
  is NaN in floating point is modelled as `none`;
* the matrix inversion with pseudo-inverse fallback (numpy, lines 169-173) is a
  function `matinv` on `k × k` matrices;
* the two bootstrap routines (`mboot_did` and `wboot_std_ipw_rc`, lines
  209-217) are functions `mboot` and `wboot` producing the replicate list.

The analytic variance-estimator outputs (lines 203-205) involve a square root,
so they are modelled in `ℝ` by the definitions `se_att`, `uci` and `lci`; the
rest of the pipeline, including the returned `StdIPWDIDRCResult`, stays in `ℚ`.
-/

namespace StdIPW

/-- Mean of a length `n` vector, modelling `np.mean` (sum divided by `n`). -/
def mean {n : ℕ} (v : Fin n → ℚ) : ℚ := (∑ i, v i) / n

/-- Clipping of the fitted propensity scores, line 137:
`ps_fit = np.clip(ps_fit, 1e-6, 1 - 1e-6)`. -/
def clipPS (x : ℚ) : ℚ := min (max x (1 / 1000000)) (1 - 1 / 1000000)

/-- Weight normalization, line 111: `i_weights = i_weights / np.mean(i_weights)`. -/
def normalizeWeights {n : ℕ} (w : Fin n → ℚ) : Fin n → ℚ := fun i => w i / mean w

/-- Trimming indicator, lines 141-142: `trim_ps` is `1` everywhere except on
control units (`d == 0`), where it is `1` exactly when the fitted (clipped)
propensity is strictly below the trim level. -/
def trim_ps {n : ℕ} (d ps : Fin n → ℚ) (trim_level : ℚ) : Fin n → ℚ :=
  fun i => if d i = 0 then (if ps i < trim_level then 1 else 0) else 1

/-- Line 146: `w_treat_pre = trim_ps * i_weights * d * (1 - post)`. -/
def w_treat_pre {n : ℕ} (trim iw d post : Fin n → ℚ) : Fin n → ℚ :=
  fun i => trim i * iw i * d i * (1 - post i)

/-- Line 147: `w_treat_post = trim_ps * i_weights * d * post`. -/
def w_treat_post {n : ℕ} (trim iw d post : Fin n → ℚ) : Fin n → ℚ :=
  fun i => trim i * iw i * d i * post i

/-- Line 148: `w_cont_pre = trim_ps * i_weights * ps_fit * (1 - d) * (1 - post) / (1 - ps_fit)`. -/
def w_cont_pre {n : ℕ} (trim iw ps d post : Fin n → ℚ) : Fin n → ℚ :=
  fun i => trim i * iw i * ps i * (1 - d i) * (1 - post i) / (1 - ps i)

/-- Line 149: `w_cont_post = trim_ps * i_weights * ps_fit * (1 - d) * post / (1 - ps_fit)`. -/
def w_cont_post {n : ℕ} (trim iw ps d post : Fin n → ℚ) : Fin n → ℚ :=
  fun i => trim i * iw i * ps i * (1 - d i) * post i / (1 - ps i)

/-- Lines 152-155: the influence-function summands `eta_cell = w_cell * y / np.mean(w_cell)`. -/
def eta {n : ℕ} (w y : Fin n → ℚ) : Fin n → ℚ := fun i => w i * y i / mean w

/-- Lines 158-161: the cell component estimates `att_cell = np.mean(eta_cell)`. -/
def att_cell {n : ℕ} (w y : Fin n → ℚ) : ℚ := mean (eta w y)

/-- Lines 141-164: the ATT point estimate
`ipw_att = (att_treat_post - att_treat_pre) - (att_cont_post - att_cont_pre)`
as a function of outcomes, indicators, normalized weights, clipped propensities
and the trim level. -/
def attFrom {n : ℕ} (y post d iw ps : Fin n → ℚ) (trim_level : ℚ) : ℚ :=
  let trim := trim_ps d ps trim_level
  (att_cell (w_treat_post trim iw d post) y - att_cell (w_treat_pre trim iw d post) y) -
    (att_cell (w_cont_post trim iw ps d post) y - att_cell (w_cont_pre trim iw ps d post) y)

/-- Line 168: `score_ps = (i_weights * (d - ps_fit))[:, np.newaxis] * covariates`. -/
def score_ps {n k : ℕ} (iw d ps : Fin n → ℚ) (X : Fin n → Fin k → ℚ) :
    Fin n → Fin k → ℚ :=
  fun i j => iw i * (d i - ps i) * X i j

/-- Line 170, the matrix that is inverted (or pseudo-inverted):
`covariates.T @ (ps_weights[:, np.newaxis] * covariates)` with
`ps_weights = ps_fit * (1 - ps_fit) * i_weights` (line 138). -/
def hessianBase {n k : ℕ} (iw ps : Fin n → ℚ) (X : Fin n → Fin k → ℚ) :
    Fin k → Fin k → ℚ :=
  fun a b => ∑ i, X i a * (ps i * (1 - ps i) * iw i * X i b)

/-- Lines 166-200: the influence function `att_inf_func` of the estimator.
`matinv` is the external matrix-inversion collaborator (numpy `inv`, with
`pinv` as fallback on `LinAlgError`, lines 169-173). -/
def attInfFrom {n k : ℕ} (y post d : Fin n → ℚ) (X : Fin n → Fin k → ℚ)
    (iw ps : Fin n → ℚ) (trim_level : ℚ)
    (matinv : (Fin k → Fin k → ℚ) → Fin k → Fin k → ℚ) : Fin n → ℚ :=
  let trim := trim_ps d ps trim_level
  let wtp := w_treat_pre trim iw d post
  let wtq := w_treat_post trim iw d post
  let wcp := w_cont_pre trim iw ps d post
  let wcq := w_cont_post trim iw ps d post
  let hessian_ps := fun a b => matinv (hessianBase iw ps X) a b * n
  let asy_lin_rep_ps := fun i j => ∑ l, score_ps iw d ps X i l * hessian_ps l j
  let inf_treat := fun i =>
    (eta wtq y i - wtq i * att_cell wtq y / mean wtq) -
      (eta wtp y i - wtp i * att_cell wtp y / mean wtp)
  let m2_pre := fun j => mean (fun i => wcp i * (y i - att_cell wcp y) * X i j) / mean wcp
  let m2_post := fun j => mean (fun i => wcq i * (y i - att_cell wcq y) * X i j) / mean wcq
  let inf_cont_ps := fun i => ∑ j, asy_lin_rep_ps i j * (m2_post j - m2_pre j)
  let inf_cont := fun i =>
    ((eta wcq y i - wcq i * att_cell wcq y / mean wcq) -
      (eta wcp y i - wcp i * att_cell wcp y / mean wcp)) + inf_cont_ps i
  fun i => inf_treat i - inf_cont i

/-- Line 203 numerator building block: the sample variance of a vector with
`ddof = 1` denominator `n - 1`, so that `np.std(v, ddof=1)` is its square root. -/
def sampleVar {n : ℕ} (v : Fin n → ℚ) : ℚ :=
  (∑ i, (v i - mean v) ^ 2) / ((n : ℚ) - 1)

/-- Line 203: the analytic standard error
`se_att = np.std(att_inf_func, ddof=1) / np.sqrt(n_units)`. -/
noncomputable def se_att {n : ℕ} (v : Fin n → ℚ) : ℝ :=
  Real.sqrt (sampleVar v) / Real.sqrt n

/-- Line 204: `uci = ipw_att + 1.96 * se_att`. -/
noncomputable def uci {n : ℕ} (att : ℚ) (v : Fin n → ℚ) : ℝ :=
  (att : ℝ) + 1.96 * se_att v

/-- Line 205: `lci = ipw_att - 1.96 * se_att`. -/
noncomputable def lci {n : ℕ} (att : ℚ) (v : Fin n → ℚ) : ℝ :=
  (att : ℝ) - 1.96 * se_att v

/-- The type of bootstrap requested, line 33 (`boot_type`). -/
inductive BootType
  | weighted
  | multiplier
  deriving DecidableEq

/-- The error conditions the source raises (all as `ValueError`, except the
wrapped `LinAlgError`); one constructor per `raise` site. -/
inductive DidError
  | negativeWeights
  | noTreated
  | noControl
  | noPost
  | noPre
  | naParams
  | singularMatrix
  deriving DecidableEq

/-- Output bundle of the external weighted-logit solver (lines 124-133):
fitted coefficients (a coefficient that is NaN in floating point is `none`),
the convergence flag, and the fitted probabilities `predict(covariates)`. -/
structure PScoreFit (n k : ℕ) where
  params : Fin k → Option ℚ
  converged : Bool
  ps_fit : Fin n → ℚ
  deriving DecidableEq

/-- Result record of the estimator (lines 14-23 and 236-243).  The standard
error and the confidence bounds of the analytic branch are modelled by the
real-valued definitions `se_att`, `uci`, `lci`, and the bootstrap-branch scale
estimate by the external replicate list, so the record keeps the rational
payload: the ATT, the optional replicate draws and the optional influence
function. -/
structure StdIPWDIDRCResult (n : ℕ) where
  att : ℚ
  boots : Option (List ℚ)
  att_inf_func : Option (Fin n → ℚ)
  deriving DecidableEq

/-- Lines 113-243, the computation after covariate resolution and weight
normalization: the four marginal validation checks, the propensity fit with
its NaN-coefficient check, and the assembly of the result.  `fit` is the
external logit solver applied to the normalized weights, `mboot`/`wboot` the
external bootstrap collaborators. -/
def std_ipw_core {n k : ℕ} (y post d : Fin n → ℚ) (X : Fin n → Fin k → ℚ)
    (iw : Fin n → ℚ) (boot : Bool) (boot_type : BootType) (nboot : ℕ)
    (influence_func : Bool) (trim_level : ℚ)
    (fit : (Fin n → ℚ) → Except Unit (PScoreFit n k))
    (matinv : (Fin k → Fin k → ℚ) → Fin k → Fin k → ℚ)
    (mboot : (Fin n → ℚ) → ℕ → List ℚ)
    (wboot : (Fin n → ℚ) → ℕ → ℚ → List ℚ) :
    Except DidError (StdIPWDIDRCResult n) :=
  if ¬ ∃ i, d i = 1 then .error .noTreated
  else if ¬ ∃ i, d i = 0 then .error .noControl
  else if ¬ ∃ i, post i = 1 then .error .noPost
  else if ¬ ∃ i, post i = 0 then .error .noPre
  else
    match fit iw with
    | .error _ => .error .singularMatrix
    | .ok f =>
      if ∃ j, f.params j = none then .error .naParams
      else
        let ps := fun i => clipPS (f.ps_fit i)
        let infv := attInfFrom y post d X iw ps trim_level matinv
        .ok
          { att := attFrom y post d iw ps trim_level
            boots :=
              if boot then
                some (match boot_type with
                  | .multiplier => mboot infv nboot
                  | .weighted => wboot iw nboot trim_level)
              else none
            att_inf_func := if influence_func then some infv else none }

/-- The entry point `std_ipw_did_rc` (lines 26-243): covariate resolution
(`None` becomes an intercept column of ones, lines 100-101), the negative
weight check and mean-1 normalization (lines 105-111), then `std_ipw_core`. -/
def std_ipw_did_rc {n k : ℕ} (y post d : Fin n → ℚ)
    (covariates : Option (Fin n → Fin k → ℚ)) (i_weights : Option (Fin n → ℚ))
    (boot : Bool) (boot_type : BootType) (nboot : ℕ)
    (influence_func : Bool) (trim_level : ℚ)
    (fit : (Fin n → ℚ) → Except Unit (PScoreFit n k))
    (matinv : (Fin k → Fin k → ℚ) → Fin k → Fin k → ℚ)
    (mboot : (Fin n → ℚ) → ℕ → List ℚ)
    (wboot : (Fin n → ℚ) → ℕ → ℚ → List ℚ) :
    Except DidError (StdIPWDIDRCResult n) :=
  let X := covariates.getD fun _ _ => 1
  match i_weights with
  | none =>
      std_ipw_core y post d X (normalizeWeights fun _ => 1) boot boot_type nboot
        influence_func trim_level fit matinv mboot wboot
  | some w =>
      if ∃ i, w i < 0 then .error .negativeWeights
      else
        std_ipw_core y post d X (normalizeWeights w) boot boot_type nboot
          influence_func trim_level fit matinv mboot wboot

/-! ## Definitions following the specification text

These definitions transcribe the formulas of the specification (sections 4.3,
4.4 and 8) rather than the source lines; the claim theorems compare them with
the source-side definitions above. -/

/-- Hajek group-period cell mean as the specification words it (section 4.3):
`mean(weight_i * outcome_i) / mean(weight_i)`. -/
def hajekMean {n : ℕ} (w y : Fin n → ℚ) : ℚ := mean (fun i => w i * y i) / mean w

/-- Influence function as the specification words it (section 4.4): per cell
the leading term `eta_cell - weight_cell * cell_mean / mean(weight_cell)` with
`eta_cell = weight_cell * outcome / mean(weight_cell)` and `cell_mean` the
Hajek ratio-of-means; the correction is, per unit, the inner product of the
propensity-score influence contribution `score_i @ Hinv` with the direction
`delta = m2_post - m2_pre`, where
`m2_period = mean(weight_cell * (outcome - cell_mean) * covariates) / mean(weight_cell)`;
and the final vector is
`(treated_post leading - treated_pre leading) - ((control_post leading - control_pre leading) + correction)`.
`hess` stands for the inverted (or pseudo-inverted) scaled Hessian. -/
def specInfluence {n k : ℕ} (y post d : Fin n → ℚ) (X : Fin n → Fin k → ℚ)
    (iw ps : Fin n → ℚ) (trim_level : ℚ) (hess : Fin k → Fin k → ℚ) : Fin n → ℚ :=
  let trim := trim_ps d ps trim_level
  let wtp := w_treat_pre trim iw d post
  let wtq := w_treat_post trim iw d post
  let wcp := w_cont_pre trim iw ps d post
  let wcq := w_cont_post trim iw ps d post
  let lead := fun (w : Fin n → ℚ) i =>
    w i * y i / mean w - w i * hajekMean w y / mean w
  let m2 := fun (w : Fin n → ℚ) j =>
    mean (fun i => w i * (y i - hajekMean w y) * X i j) / mean w
  let corr := fun i =>
    ∑ j, (∑ l, iw i * (d i - ps i) * X i l * hess l j) * (m2 wcq j - m2 wcp j)
  fun i => (lead wtq i - lead wtp i) - ((lead wcq i - lead wcp i) + corr i)

/-- Unweighted cell mean of the outcomes over the units selected by the 0-1
indicator `sel`, as in the specification property of section 8. -/
def cellMean {n : ℕ} (y sel : Fin n → ℚ) : ℚ := (∑ i, sel i * y i) / (∑ i, sel i)

/-- The simple difference-in-differences of unweighted cell means
(specification section 8):
`(mean(y | treat, post) - mean(y | treat, pre)) - (mean(y | control, post) - mean(y | control, pre))`. -/
def simpleDiD {n : ℕ} (y d post : Fin n → ℚ) : ℚ :=
  (cellMean y (fun i => d i * post i) - cellMean y (fun i => d i * (1 - post i))) -
    (cellMean y (fun i => (1 - d i) * post i) -
      cellMean y (fun i => (1 - d i) * (1 - post i)))

/-- Modelled from the spec: the external weighted logistic MLE solver
(statsmodels `Logit`, out of scope of the source file), specialized to an
intercept-only design.  The first-order condition of the weighted logistic
likelihood with a single intercept regressor is `sum w * (d - p) = 0`, so the
fitted probability is the constant weighted treated share
`sum (w * d) / sum w`.  The intercept coefficient itself is never consumed by
the core (only its NaN-ness is tested), so it is carried as an unspecified
finite value `0`. -/
def interceptLogitFit {n : ℕ} (d : Fin n → ℚ) (iw : Fin n → ℚ) :
    Except Unit (PScoreFit n 1) :=
  .ok
    { params := fun _ => some 0
      converged := true
      ps_fit := fun _ => (∑ i, iw i * d i) / (∑ i, iw i) }

/-! ## Basic lemmas about the embedded operations -/

/-- The per-cell component estimate of the source, `np.mean(eta_cell)`, is the
Hajek ratio of means: both divide the same sum by `mean w` and by `n`, in
either order.  This holds unconditionally with totalized division. -/
theorem att_cell_eq_hajekMean {n : ℕ} (w y : Fin n → ℚ) :
    att_cell w y = hajekMean w y := by
  unfold att_cell hajekMean eta mean
  rw [← Finset.sum_div, div_right_comm]

theorem clipPS_le (x : ℚ) : clipPS x ≤ 1 - 1 / 1000000 := min_le_right _ _

theorem le_clipPS (x : ℚ) : 1 / 1000000 ≤ clipPS x :=
  le_min (le_max_right _ _) (by norm_num)

theorem clipPS_pos (x : ℚ) : 0 < clipPS x :=
  lt_of_lt_of_le (by norm_num) (le_clipPS x)

theorem clipPS_lt_one (x : ℚ) : clipPS x < 1 :=
  lt_of_le_of_lt (clipPS_le x) (by norm_num)

theorem one_sub_clipPS_pos (x : ℚ) : 0 < 1 - clipPS x := by
  have := clipPS_lt_one x
  linarith

/-- The sample variance with `ddof = 1` is non-negative (for `n = 0` both the
numerator and the convention make it `0`). -/
theorem sampleVar_nonneg {n : ℕ} (v : Fin n → ℚ) : 0 ≤ sampleVar v := by
  unfold sampleVar
  rcases Nat.eq_zero_or_pos n with h | h
  · subst h
    simp
  · apply div_nonneg
    · exact Finset.sum_nonneg fun i _ => sq_nonneg _
    · have : (1 : ℚ) ≤ (n : ℚ) := by exact_mod_cast h
      linarith

/-- Rescaling all raw weights by a nonzero constant does not change the
mean-1 normalized weights. -/
theorem normalizeWeights_smul {n : ℕ} (w : Fin n → ℚ) (c : ℚ) (hc : c ≠ 0) :
    normalizeWeights (fun i => c * w i) = normalizeWeights w := by
  funext i
  unfold normalizeWeights mean
  rw [← Finset.mul_sum]
  have hd : (c * ∑ j, w j) / (n : ℚ) = c * ((∑ j, w j) / n) := by ring
  rw [hd]
  exact mul_div_mul_left _ _ hc

/-- A constant positive weight vector normalizes to the all-ones vector, the
same normalized weights as the defaulted (`i_weights = None`) case. -/
theorem normalizeWeights_const {n : ℕ} (c : ℚ) (hc : c ≠ 0) :
    normalizeWeights (fun _ : Fin n => c) = normalizeWeights (fun _ => 1) := by
  have h := normalizeWeights_smul (fun _ : Fin n => (1 : ℚ)) c hc
  simpa using h

/-- Constructor form of a successful run of the post-validation core: when the
four marginal checks pass, the solver returns a fit and no coefficient is NaN,
the core returns the assembled result. -/
theorem std_ipw_core_eq_ok {n k : ℕ} (y post d : Fin n → ℚ)
    (X : Fin n → Fin k → ℚ) (iw : Fin n → ℚ) (boot : Bool) (boot_type : BootType)
    (nboot : ℕ) (influence_func : Bool) (trim_level : ℚ)
    (fit : (Fin n → ℚ) → Except Unit (PScoreFit n k))
    (matinv : (Fin k → Fin k → ℚ) → Fin k → Fin k → ℚ)
    (mboot : (Fin n → ℚ) → ℕ → List ℚ) (wboot : (Fin n → ℚ) → ℕ → ℚ → List ℚ)
    (h1 : ∃ i, d i = 1) (h2 : ∃ i, d i = 0) (h3 : ∃ i, post i = 1)
    (h4 : ∃ i, post i = 0) (f : PScoreFit n k) (hf : fit iw = .ok f)
    (h5 : ¬ ∃ j, f.params j = none) :
    std_ipw_core y post d X iw boot boot_type nboot influence_func trim_level
        fit matinv mboot wboot =
      .ok
        { att := attFrom y post d iw (fun i => clipPS (f.ps_fit i)) trim_level
          boots :=
            if boot then
              some (match boot_type with
                | .multiplier =>
                    mboot (attInfFrom y post d X iw
                      (fun i => clipPS (f.ps_fit i)) trim_level matinv) nboot
                | .weighted => wboot iw nboot trim_level)
            else none
          att_inf_func :=
            if influence_func then
              some (attInfFrom y post d X iw (fun i => clipPS (f.ps_fit i))
                trim_level matinv)
            else none } := by
  unfold std_ipw_core
  simp only [hf]
  rw [if_neg (not_not_intro h1), if_neg (not_not_intro h2),
    if_neg (not_not_intro h3), if_neg (not_not_intro h4), if_neg h5]

/-! ## Claim theorems -/

/-- C1: for every input, the influence function returned by the source
(lines 166-200) is built in the form stated by the specification: each cell
contributes the leading term `eta_cell - weight_cell * cell_mean / mean(weight_cell)`
with `eta_cell = weight_cell * outcome / mean(weight_cell)` and `cell_mean`
the Hajek ratio of means; the first-stage correction per unit is the inner
product of `score_i @ Hinv` (with `score_i = weight_i * (group_i - ps_i) * covariates_i`
and `Hinv` the inverted or pseudo-inverted weighted covariate-outer-product
Hessian scaled by `n`) with the direction `delta = m2_post - m2_pre`; and the
final vector is `(treated_post leading - treated_pre leading) -
((control_post leading - control_pre leading) + correction)`. -/
theorem c1_influence_function_form {n k : ℕ} (y post d : Fin n → ℚ)
    (X : Fin n → Fin k → ℚ) (iw ps : Fin n → ℚ) (trim_level : ℚ)
    (matinv : (Fin k → Fin k → ℚ) → Fin k → Fin k → ℚ) :
    attInfFrom y post d X iw ps trim_level matinv =
      specInfluence y post d X iw ps trim_level
        (fun a b => matinv (hessianBase iw ps X) a b * n) := by
  funext i
  simp only [attInfFrom, specInfluence, score_ps, eta, att_cell_eq_hajekMean]

/-- C2: for every input, the ATT point estimate of the source (lines 152-164,
a mean of the per-unit summands `eta_cell`) equals the double difference of
the four Hajek ratio-of-means cell means
`mean(weight_i * outcome_i) / mean(weight_i)`:
(post-treated minus pre-treated) minus (post-control minus pre-control). -/
theorem c2_att_is_hajek_double_difference {n : ℕ} (y post d iw ps : Fin n → ℚ)
    (trim_level : ℚ) :
    attFrom y post d iw ps trim_level =
      (hajekMean (w_treat_post (trim_ps d ps trim_level) iw d post) y -
        hajekMean (w_treat_pre (trim_ps d ps trim_level) iw d post) y) -
      (hajekMean (w_cont_post (trim_ps d ps trim_level) iw ps d post) y -
        hajekMean (w_cont_pre (trim_ps d ps trim_level) iw ps d post) y) := by
  simp only [attFrom, att_cell_eq_hajekMean]

/-- C5: in the analytic (no-bootstrap) branch, the reported standard error
(line 203: sample standard deviation of the influence function with the
`n - 1` denominator, divided by the square root of `n`) equals
`sqrt(variance(influence_function) / n)`, and the reported confidence bounds
(lines 204-205) are the estimate plus and minus `1.96` times that standard
error. -/
theorem c5_analytic_se_and_ci {n k : ℕ} (y post d : Fin n → ℚ)
    (X : Fin n → Fin k → ℚ) (iw ps : Fin n → ℚ) (trim_level : ℚ)
    (matinv : (Fin k → Fin k → ℚ) → Fin k → Fin k → ℚ) (att : ℚ) :
    se_att (attInfFrom y post d X iw ps trim_level matinv) =
      Real.sqrt ((sampleVar (attInfFrom y post d X iw ps trim_level matinv) : ℝ) / n) ∧
    uci att (attInfFrom y post d X iw ps trim_level matinv) =
      (att : ℝ) + 1.96 * se_att (attInfFrom y post d X iw ps trim_level matinv) ∧
    lci att (attInfFrom y post d X iw ps trim_level matinv) =
      (att : ℝ) - 1.96 * se_att (attInfFrom y post d X iw ps trim_level matinv) := by
  refine ⟨?_, rfl, rfl⟩
  unfold se_att
  rw [Real.sqrt_div (by exact_mod_cast sampleVar_nonneg _) (n : ℝ)]

/-- The trimming indicator takes only the values 0 and 1, hence is non-negative. -/
theorem trim_ps_nonneg {n : ℕ} (d ps : Fin n → ℚ) (trim_level : ℚ) (i : Fin n) :
    0 ≤ trim_ps d ps trim_level i := by
  unfold trim_ps
  split <;> [skip; norm_num]
  split <;> norm_num

/-- C4: for 0-1 group and period indicators and non-negative (normalized)
observation weights, the four weight vectors of lines 141-149 have the stated
form — the treated vectors are trimming indicator times weight times the
group-period selectors, the control vectors additionally carry the propensity
odds `ps / (1 - ps)` of the clipped fitted propensity; the trimming indicator
is 1 on every treated unit and, on a control unit, 1 exactly when the clipped
fitted propensity is below the trim level; a control unit at or above the trim
level contributes zero to all four vectors; and each vector is non-negative
and zero outside its defining group-period cell. -/
theorem c4_weight_vectors {n : ℕ} (post d iw ps0 ps : Fin n → ℚ) (trim_level : ℚ)
    (i : Fin n) (hps : ∀ j, ps j = clipPS (ps0 j))
    (hd : ∀ j, d j = 0 ∨ d j = 1) (hp : ∀ j, post j = 0 ∨ post j = 1)
    (hw : ∀ j, 0 ≤ iw j) :
    (w_treat_pre (trim_ps d ps trim_level) iw d post i =
        trim_ps d ps trim_level i * iw i * d i * (1 - post i) ∧
      w_treat_post (trim_ps d ps trim_level) iw d post i =
        trim_ps d ps trim_level i * iw i * d i * post i ∧
      w_cont_pre (trim_ps d ps trim_level) iw ps d post i =
        trim_ps d ps trim_level i * iw i * (ps i / (1 - ps i)) * (1 - d i) * (1 - post i) ∧
      w_cont_post (trim_ps d ps trim_level) iw ps d post i =
        trim_ps d ps trim_level i * iw i * (ps i / (1 - ps i)) * (1 - d i) * post i) ∧
    ((d i = 1 → trim_ps d ps trim_level i = 1) ∧
      (d i = 0 → (trim_ps d ps trim_level i = 1 ↔ ps i < trim_level))) ∧
    (d i = 0 → trim_level ≤ ps i →
      w_treat_pre (trim_ps d ps trim_level) iw d post i = 0 ∧
      w_treat_post (trim_ps d ps trim_level) iw d post i = 0 ∧
      w_cont_pre (trim_ps d ps trim_level) iw ps d post i = 0 ∧
      w_cont_post (trim_ps d ps trim_level) iw ps d post i = 0) ∧
    (0 ≤ w_treat_pre (trim_ps d ps trim_level) iw d post i ∧
      0 ≤ w_treat_post (trim_ps d ps trim_level) iw d post i ∧
      0 ≤ w_cont_pre (trim_ps d ps trim_level) iw ps d post i ∧
      0 ≤ w_cont_post (trim_ps d ps trim_level) iw ps d post i) ∧
    ((w_treat_pre (trim_ps d ps trim_level) iw d post i ≠ 0 → d i = 1 ∧ post i = 0) ∧
      (w_treat_post (trim_ps d ps trim_level) iw d post i ≠ 0 → d i = 1 ∧ post i = 1) ∧
      (w_cont_pre (trim_ps d ps trim_level) iw ps d post i ≠ 0 → d i = 0 ∧ post i = 0) ∧
      (w_cont_post (trim_ps d ps trim_level) iw ps d post i ≠ 0 → d i = 0 ∧ post i = 1)) := by
  have hps_pos : 0 < ps i := by rw [hps i]; exact clipPS_pos _
  have hps_lt : 0 < 1 - ps i := by rw [hps i]; exact one_sub_clipPS_pos _
  have htrim := trim_ps_nonneg d ps trim_level i
  have hd01 : 0 ≤ d i ∧ d i ≤ 1 := by rcases hd i with h | h <;> rw [h] <;> norm_num
  have hp01 : 0 ≤ post i ∧ post i ≤ 1 := by rcases hp i with h | h <;> rw [h] <;> norm_num
  refine ⟨⟨rfl, rfl, by unfold w_cont_pre; ring, by unfold w_cont_post; ring⟩,
    ⟨?_, ?_⟩, ?_, ⟨?_, ?_, ?_, ?_⟩, ⟨?_, ?_, ?_, ?_⟩⟩
  · intro h
    have : d i ≠ 0 := by rw [h]; norm_num
    simp [trim_ps, this]
  · intro h
    simp only [trim_ps, h, if_true, if_pos rfl]
    by_cases hlt : ps i < trim_level
    · simp [hlt]
    · simp [hlt]
  · intro h0 hτ
    have htz : trim_ps d ps trim_level i = 0 := by
      simp [trim_ps, h0, not_lt.2 hτ]
    exact ⟨by simp [w_treat_pre, h0], by simp [w_treat_post, h0],
      by simp [w_cont_pre, htz], by simp [w_cont_post, htz]⟩
  · exact mul_nonneg (mul_nonneg (mul_nonneg htrim (hw i)) hd01.1) (by linarith [hp01.2])
  · exact mul_nonneg (mul_nonneg (mul_nonneg htrim (hw i)) hd01.1) hp01.1
  · exact div_nonneg
      (mul_nonneg (mul_nonneg (mul_nonneg (mul_nonneg htrim (hw i)) hps_pos.le)
        (by linarith [hd01.2])) (by linarith [hp01.2])) hps_lt.le
  · exact div_nonneg
      (mul_nonneg (mul_nonneg (mul_nonneg (mul_nonneg htrim (hw i)) hps_pos.le)
        (by linarith [hd01.2])) hp01.1) hps_lt.le
  · intro hne
    rcases hd i with h | h
    · exact absurd (by simp [w_treat_pre, h]) hne
    · rcases hp i with h' | h'
      · exact ⟨h, h'⟩
      · exact absurd (by simp [w_treat_pre, h']) hne
  · intro hne
    rcases hd i with h | h
    · exact absurd (by simp [w_treat_post, h]) hne
    · rcases hp i with h' | h'
      · exact absurd (by simp [w_treat_post, h']) hne
      · exact ⟨h, h'⟩
  · intro hne
    rcases hd i with h | h
    · rcases hp i with h' | h'
      · exact ⟨h, h'⟩
      · exact absurd (by simp [w_cont_pre, h']) hne
    · exact absurd (by simp [w_cont_pre, h]) hne
  · intro hne
    rcases hd i with h | h
    · rcases hp i with h' | h'
      · exact absurd (by simp [w_cont_post, h']) hne
      · exact ⟨h, h'⟩
    · exact absurd (by simp [w_cont_post, h]) hne

/-- Witness for C4 at a concrete input: two units, the first treated in the
pre period, the second a control in the post period, unit weights, constant
fitted propensity one half, default trim level. -/
theorem c4_weight_vectors_witness :
    w_treat_pre (trim_ps ![1, 0] ![1 / 2, 1 / 2] (995 / 1000)) ![1, 1] ![1, 0] ![0, 1] 0 =
        trim_ps ![1, 0] ![1 / 2, 1 / 2] (995 / 1000) 0 * (![1, 1] : Fin 2 → ℚ) 0 *
          (![1, 0] : Fin 2 → ℚ) 0 * (1 - (![0, 1] : Fin 2 → ℚ) 0) ∧
      0 ≤ w_cont_post (trim_ps ![1, 0] ![1 / 2, 1 / 2] (995 / 1000)) ![1, 1]
        ![1 / 2, 1 / 2] ![1, 0] ![0, 1] 0 := by
  have h := c4_weight_vectors (n := 2) ![0, 1] ![1, 0] ![1, 1] ![1 / 2, 1 / 2]
    ![1 / 2, 1 / 2] (995 / 1000) 0
    (by intro j; fin_cases j <;> norm_num [clipPS])
    (by intro j; fin_cases j <;> norm_num)
    (by intro j; fin_cases j <;> norm_num)
    (by intro j; fin_cases j <;> norm_num)
  exact ⟨h.1.1, h.2.2.2.1.2.2.2⟩

/-- Unfolding of the entry point when a weight vector is supplied. -/
theorem std_ipw_did_rc_some {n k : ℕ} (y post d : Fin n → ℚ)
    (covariates : Option (Fin n → Fin k → ℚ)) (w : Fin n → ℚ)
    (boot : Bool) (boot_type : BootType) (nboot : ℕ) (influence_func : Bool)
    (trim_level : ℚ) (fit : (Fin n → ℚ) → Except Unit (PScoreFit n k))
    (matinv : (Fin k → Fin k → ℚ) → Fin k → Fin k → ℚ)
    (mboot : (Fin n → ℚ) → ℕ → List ℚ) (wboot : (Fin n → ℚ) → ℕ → ℚ → List ℚ) :
    std_ipw_did_rc y post d covariates (some w) boot boot_type nboot
        influence_func trim_level fit matinv mboot wboot =
      if ∃ i, w i < 0 then .error .negativeWeights
      else
        std_ipw_core y post d (covariates.getD fun _ _ => 1) (normalizeWeights w)
          boot boot_type nboot influence_func trim_level fit matinv mboot wboot := rfl

/-- Unfolding of the entry point when no weight vector is supplied: the
weights default to ones. -/
theorem std_ipw_did_rc_none {n k : ℕ} (y post d : Fin n → ℚ)
    (covariates : Option (Fin n → Fin k → ℚ))
    (boot : Bool) (boot_type : BootType) (nboot : ℕ) (influence_func : Bool)
    (trim_level : ℚ) (fit : (Fin n → ℚ) → Except Unit (PScoreFit n k))
    (matinv : (Fin k → Fin k → ℚ) → Fin k → Fin k → ℚ)
    (mboot : (Fin n → ℚ) → ℕ → List ℚ) (wboot : (Fin n → ℚ) → ℕ → ℚ → List ℚ) :
    std_ipw_did_rc y post d covariates none boot boot_type nboot
        influence_func trim_level fit matinv mboot wboot =
      std_ipw_core y post d (covariates.getD fun _ _ => 1)
        (normalizeWeights fun _ => 1) boot boot_type nboot influence_func
        trim_level fit matinv mboot wboot := rfl

/-- C6 counterexample: the claim says the entry point fails with a validation
error when one of the four group-by-period combinations is empty.  On this
two-unit input the treated unit is only observed pre-treatment and the control
unit only post-treatment, so the treated-post (and treated-pre control)
combinations are empty, yet all four marginal checks of lines 113-120 pass and
the call returns a result instead of failing. -/
theorem c6_counterexample :
    std_ipw_did_rc (n := 2) (k := 1) ![0, 0] ![0, 1] ![1, 0]
        (some fun _ _ => 1) none false .weighted 999 false (995 / 1000)
        (fun _ => .ok { params := fun _ => some 0, converged := true, ps_fit := fun _ => 1 / 2 })
        (fun M => M) (fun _ _ => []) (fun _ _ _ => []) =
      .ok { att := 0, boots := none, att_inf_func := none } ∧
    ¬ ∃ i : Fin 2, (![1, 0] : Fin 2 → ℚ) i = 1 ∧ (![0, 1] : Fin 2 → ℚ) i = 1 := by
  constructor
  · rw [std_ipw_did_rc_none,
      std_ipw_core_eq_ok _ _ _ _ _ _ _ _ _ _ _ _ _ _
        ⟨0, by norm_num⟩ ⟨1, by norm_num⟩ ⟨1, by norm_num⟩ ⟨0, by norm_num⟩
        _ rfl (by simp)]
    norm_num [attFrom, att_cell, eta, mean, w_treat_pre, w_treat_post,
      w_cont_pre, w_cont_post, trim_ps, clipPS, normalizeWeights,
      Fin.sum_univ_succ, min_def, max_def]
  · norm_num [Fin.exists_fin_succ]

/-- C6 amended: before any propensity-model fitting or other computation, the
entry point rejects a negative observation weight, and it rejects inputs with
no treated unit, no control unit, no post-period observation or no pre-period
observation (the four marginal checks of lines 113-120); empty group-by-period
combinations are not rejected.  Each rejection holds for every fit
collaborator, every outcome vector and every trim level, so no fitting or
downstream computation is involved. -/
theorem c6_validation_checks {n k : ℕ} (y post d : Fin n → ℚ)
    (covariates : Option (Fin n → Fin k → ℚ)) (w : Fin n → ℚ)
    (boot : Bool) (boot_type : BootType) (nboot : ℕ) (influence_func : Bool)
    (trim_level : ℚ) (fit : (Fin n → ℚ) → Except Unit (PScoreFit n k))
    (matinv : (Fin k → Fin k → ℚ) → Fin k → Fin k → ℚ)
    (mboot : (Fin n → ℚ) → ℕ → List ℚ) (wboot : (Fin n → ℚ) → ℕ → ℚ → List ℚ) :
    ((∃ i, w i < 0) →
      std_ipw_did_rc y post d covariates (some w) boot boot_type nboot
        influence_func trim_level fit matinv mboot wboot = .error .negativeWeights) ∧
    (¬ (∃ i, w i < 0) → ¬ (∃ i, d i = 1) →
      std_ipw_did_rc y post d covariates (some w) boot boot_type nboot
        influence_func trim_level fit matinv mboot wboot = .error .noTreated) ∧
    (¬ (∃ i, w i < 0) → (∃ i, d i = 1) → ¬ (∃ i, d i = 0) →
      std_ipw_did_rc y post d covariates (some w) boot boot_type nboot
        influence_func trim_level fit matinv mboot wboot = .error .noControl) ∧
    (¬ (∃ i, w i < 0) → (∃ i, d i = 1) → (∃ i, d i = 0) → ¬ (∃ i, post i = 1) →
      std_ipw_did_rc y post d covariates (some w) boot boot_type nboot
        influence_func trim_level fit matinv mboot wboot = .error .noPost) ∧
    (¬ (∃ i, w i < 0) → (∃ i, d i = 1) → (∃ i, d i = 0) → (∃ i, post i = 1) →
      ¬ (∃ i, post i = 0) →
      std_ipw_did_rc y post d covariates (some w) boot boot_type nboot
        influence_func trim_level fit matinv mboot wboot = .error .noPre) := by
  refine ⟨fun hneg => ?_, fun hneg h1 => ?_, fun hneg h1 h2 => ?_,
    fun hneg h1 h2 h3 => ?_, fun hneg h1 h2 h3 h4 => ?_⟩
  · rw [std_ipw_did_rc_some, if_pos hneg]
  · rw [std_ipw_did_rc_some, if_neg hneg]
    unfold std_ipw_core
    rw [if_pos h1]
  · rw [std_ipw_did_rc_some, if_neg hneg]
    unfold std_ipw_core
    rw [if_neg (not_not_intro h1), if_pos h2]
  · rw [std_ipw_did_rc_some, if_neg hneg]
    unfold std_ipw_core
    rw [if_neg (not_not_intro h1), if_neg (not_not_intro h2), if_pos h3]
  · rw [std_ipw_did_rc_some, if_neg hneg]
    unfold std_ipw_core
    rw [if_neg (not_not_intro h1), if_neg (not_not_intro h2),
      if_neg (not_not_intro h3), if_pos h4]

/-- Witness for C6 at a concrete input: a negative entry in the weight vector
is rejected with the negative-weights error, before fitting (the fit
collaborator here would return a NaN coefficient, but is never consulted). -/
theorem c6_validation_checks_witness :
    std_ipw_did_rc (n := 2) (k := 1) ![5, 7] ![0, 1] ![1, 0]
        (some fun _ _ => 1) (some ![1, -1]) false .weighted 999 false (995 / 1000)
        (fun _ => .ok { params := fun _ => none, converged := true, ps_fit := fun _ => 1 / 2 })
        (fun M => M) (fun _ _ => []) (fun _ _ _ => []) = .error .negativeWeights := by
  refine (c6_validation_checks _ _ _ _ _ _ _ _ _ _ _ _ _ _).1 ?_
  refine ⟨1, ?_⟩
  norm_num

/-- C7: when the fitted propensity-score coefficients contain a NaN component
(line 128, `np.any(np.isnan(...))`, modelled as a `none` coefficient), the
computation fails with the fatal estimation error and no result is produced.
The check sits after fitting (the hypothesis consumes the solver's output) and
before any weight construction: the conclusion holds for every outcome vector,
trim level and bootstrap configuration, none of which are consulted. -/
theorem c7_nan_coefficients_fatal {n k : ℕ} (y post d : Fin n → ℚ)
    (covariates : Option (Fin n → Fin k → ℚ)) (w : Fin n → ℚ)
    (boot : Bool) (boot_type : BootType) (nboot : ℕ) (influence_func : Bool)
    (trim_level : ℚ) (fit : (Fin n → ℚ) → Except Unit (PScoreFit n k))
    (matinv : (Fin k → Fin k → ℚ) → Fin k → Fin k → ℚ)
    (mboot : (Fin n → ℚ) → ℕ → List ℚ) (wboot : (Fin n → ℚ) → ℕ → ℚ → List ℚ)
    (f : PScoreFit n k)
    (hneg : ¬ ∃ i, w i < 0) (h1 : ∃ i, d i = 1) (h2 : ∃ i, d i = 0)
    (h3 : ∃ i, post i = 1) (h4 : ∃ i, post i = 0)
    (hf : fit (normalizeWeights w) = .ok f) (hna : ∃ j, f.params j = none) :
    std_ipw_did_rc y post d covariates (some w) boot boot_type nboot
      influence_func trim_level fit matinv mboot wboot = .error .naParams := by
  rw [std_ipw_did_rc_some, if_neg hneg]
  unfold std_ipw_core
  simp only [hf]
  rw [if_neg (not_not_intro h1), if_neg (not_not_intro h2),
    if_neg (not_not_intro h3), if_neg (not_not_intro h4), if_pos hna]

/-- Witness for C7 at a concrete input: the solver output carries a NaN
intercept coefficient and the run aborts with the estimation error. -/
theorem c7_nan_coefficients_fatal_witness :
    std_ipw_did_rc (n := 2) (k := 1) ![4, 6] ![0, 1] ![1, 0]
        (some fun _ _ => 1) (some ![1, 1]) false .weighted 999 false (995 / 1000)
        (fun _ => .ok { params := fun _ => none, converged := true, ps_fit := fun _ => 1 / 2 })
        (fun M => M) (fun _ _ => []) (fun _ _ _ => []) = .error .naParams := by
  exact c7_nan_coefficients_fatal _ _ _ _ _ _ _ _ _ _ _ _ _ _
    { params := fun _ => none, converged := true, ps_fit := fun _ => 1 / 2 }
    (by norm_num [Fin.exists_fin_succ]) ⟨0, by norm_num⟩ ⟨1, by norm_num⟩
    ⟨1, by norm_num⟩ ⟨0, by norm_num⟩ rfl ⟨0, rfl⟩

/-- C10: on every successful call, the boots field of the result is `none`
exactly when bootstrap inference was not requested, and the influence-function
field is `none` exactly when the influence function was not requested (lines
202-243: the influence function is always computed internally, but is only
exposed in the result when `influence_func` is set). -/
theorem c10_optional_result_fields {n k : ℕ} (y post d : Fin n → ℚ)
    (covariates : Option (Fin n → Fin k → ℚ)) (i_weights : Option (Fin n → ℚ))
    (boot : Bool) (boot_type : BootType) (nboot : ℕ) (influence_func : Bool)
    (trim_level : ℚ) (fit : (Fin n → ℚ) → Except Unit (PScoreFit n k))
    (matinv : (Fin k → Fin k → ℚ) → Fin k → Fin k → ℚ)
    (mboot : (Fin n → ℚ) → ℕ → List ℚ) (wboot : (Fin n → ℚ) → ℕ → ℚ → List ℚ)
    (r : StdIPWDIDRCResult n)
    (h : std_ipw_did_rc y post d covariates i_weights boot boot_type nboot
      influence_func trim_level fit matinv mboot wboot = .ok r) :
    (r.boots = none ↔ boot = false) ∧
      (r.att_inf_func = none ↔ influence_func = false) := by
  have hcore : ∀ iw, std_ipw_core y post d (covariates.getD fun _ _ => 1) iw
      boot boot_type nboot influence_func trim_level fit matinv mboot wboot = .ok r →
      (r.boots = none ↔ boot = false) ∧
        (r.att_inf_func = none ↔ influence_func = false) := by
    intro iw hc
    unfold std_ipw_core at hc
    split at hc
    · exact absurd hc (by simp)
    split at hc
    · exact absurd hc (by simp)
    split at hc
    · exact absurd hc (by simp)
    split at hc
    · exact absurd hc (by simp)
    split at hc
    · exact absurd hc (by simp)
    split at hc
    · exact absurd hc (by simp)
    rw [Except.ok.injEq] at hc
    subst hc
    cases boot <;> cases influence_func <;> simp
  cases i_weights with
  | none => exact hcore _ (by rw [std_ipw_did_rc_none] at h; exact h)
  | some w =>
    rw [std_ipw_did_rc_some] at h
    by_cases hneg : ∃ i, w i < 0
    · rw [if_pos hneg] at h
      exact absurd h (by simp)
    · rw [if_neg hneg] at h
      exact hcore _ h

/-- Witness for C10 at a concrete successful call with bootstrap off and the
influence function not requested: both optional fields are `none`. -/
theorem c10_optional_result_fields_witness :
    ((({ att := 0, boots := none, att_inf_func := none } : StdIPWDIDRCResult 2).boots
        = none ↔ false = false) ∧
      (({ att := 0, boots := none, att_inf_func := none } : StdIPWDIDRCResult 2).att_inf_func
        = none ↔ false = false)) := by
  refine c10_optional_result_fields (k := 1) ![0, 0] ![1, 0] ![1, 0]
    (some fun _ _ => 1) none false .weighted 999 false (995 / 1000)
    (fun _ => .ok { params := fun _ => some 0, converged := true, ps_fit := fun _ => 1 / 2 })
    (fun M => M) (fun _ _ => []) (fun _ _ _ => []) _ ?_
  rw [std_ipw_did_rc_none,
    std_ipw_core_eq_ok _ _ _ _ _ _ _ _ _ _ _ _ _ _
      ⟨0, by norm_num⟩ ⟨1, by norm_num⟩ ⟨0, by norm_num⟩ ⟨1, by norm_num⟩
      _ rfl (by simp)]
  norm_num [attFrom, att_cell, eta, mean, w_treat_pre, w_treat_post,
    w_cont_pre, w_cont_post, trim_ps, clipPS, normalizeWeights,
    Fin.sum_univ_succ, min_def, max_def]

/-- C3 counterexample: with `trim_level = 0` every control unit is trimmed, so
the control-pre weight vector sums (and means) to zero; the claim says the
computation must then fail with a degenerate-weights error, but the source has
no such check: the call succeeds and returns a result whose control cell means
are the totalized `0/0` (NaN in floating point), here the treated-only
difference `1`. -/
theorem c3_counterexample :
    mean (w_cont_pre (trim_ps ![1, 1, 0, 0] (fun _ => clipPS (1 / 2)) 0)
        (normalizeWeights fun _ => 1) (fun _ => clipPS (1 / 2))
        ![1, 1, 0, 0] ![0, 1, 0, 1]) = 0 ∧
    std_ipw_did_rc (n := 4) (k := 1) ![0, 1, 5, 7] ![0, 1, 0, 1] ![1, 1, 0, 0]
        (some fun _ _ => 1) none false .weighted 999 false 0
        (fun _ => .ok { params := fun _ => some 0, converged := true, ps_fit := fun _ => 1 / 2 })
        (fun M => M) (fun _ _ => []) (fun _ _ _ => []) =
      .ok { att := 1, boots := none, att_inf_func := none } := by
  constructor
  · norm_num [mean, w_cont_pre, trim_ps, clipPS, normalizeWeights,
      Fin.sum_univ_succ, min_def, max_def]
  · rw [std_ipw_did_rc_none,
      std_ipw_core_eq_ok _ _ _ _ _ _ _ _ _ _ _ _ _ _
        ⟨0, by norm_num⟩ ⟨2, by norm_num⟩ ⟨1, by norm_num⟩ ⟨0, by norm_num⟩
        _ rfl (by simp)]
    norm_num [attFrom, att_cell, eta, mean, w_treat_pre, w_treat_post,
      w_cont_pre, w_cont_post, trim_ps, clipPS, normalizeWeights,
      Fin.sum_univ_succ, min_def, max_def]

/-- C3 amended: when a group-period weight vector degenerates to mean zero
after trimming (for example the control-pre cell under maximal trimming), the
source raises no error at all: provided the input passes the validation and
fitting stages, the call still returns a result, the degenerate cell means
being computed with the totalized division (`0/0` is NaN in floating point,
`0` in this rational model). -/
theorem c3_degenerate_weights_return_result {n k : ℕ} (y post d : Fin n → ℚ)
    (covariates : Option (Fin n → Fin k → ℚ)) (w : Fin n → ℚ)
    (boot : Bool) (boot_type : BootType) (nboot : ℕ) (influence_func : Bool)
    (trim_level : ℚ) (fit : (Fin n → ℚ) → Except Unit (PScoreFit n k))
    (matinv : (Fin k → Fin k → ℚ) → Fin k → Fin k → ℚ)
    (mboot : (Fin n → ℚ) → ℕ → List ℚ) (wboot : (Fin n → ℚ) → ℕ → ℚ → List ℚ)
    (f : PScoreFit n k)
    (hneg : ¬ ∃ i, w i < 0) (h1 : ∃ i, d i = 1) (h2 : ∃ i, d i = 0)
    (h3 : ∃ i, post i = 1) (h4 : ∃ i, post i = 0)
    (hf : fit (normalizeWeights w) = .ok f) (h5 : ¬ ∃ j, f.params j = none)
    (_hdeg : mean (w_cont_pre (trim_ps d (fun i => clipPS (f.ps_fit i)) trim_level)
        (normalizeWeights w) (fun i => clipPS (f.ps_fit i)) d post) = 0) :
    ∃ r, std_ipw_did_rc y post d covariates (some w) boot boot_type nboot
      influence_func trim_level fit matinv mboot wboot = .ok r := by
  have h := std_ipw_core_eq_ok y post d (covariates.getD fun _ _ => 1)
    (normalizeWeights w) boot boot_type nboot influence_func trim_level fit
    matinv mboot wboot h1 h2 h3 h4 f hf h5
  exact ⟨_, by rw [std_ipw_did_rc_some, if_neg hneg]; exact h⟩

/-- Witness for C3 at a concrete input with `trim_level = 0`: the control-pre
weight mean is zero, yet the run returns a result. -/
theorem c3_degenerate_weights_return_result_witness :
    ∃ r, std_ipw_did_rc (n := 4) (k := 1) ![0, 1, 5, 9] ![0, 1, 0, 1] ![1, 1, 0, 0]
        (some fun _ _ => 1) (some ![1, 1, 1, 1]) false .weighted 999 false 0
        (fun _ => .ok { params := fun _ => some 0, converged := true, ps_fit := fun _ => 1 / 2 })
        (fun M => M) (fun _ _ => []) (fun _ _ _ => []) = .ok r := by
  refine c3_degenerate_weights_return_result _ _ _ _ _ _ _ _ _ _ _ _ _ _
    { params := fun _ => some 0, converged := true, ps_fit := fun _ => 1 / 2 }
    (by norm_num [Fin.exists_fin_succ]) ⟨0, by norm_num⟩ ⟨2, by norm_num⟩
    ⟨1, by norm_num⟩ ⟨0, by norm_num⟩ rfl (by simp) ?_
  norm_num [mean, w_cont_pre, trim_ps, clipPS, normalizeWeights,
    Fin.sum_univ_succ, min_def, max_def]

/-- Scaling by a positive constant does not change the sign pattern tested by
the negative-weight check. -/
theorem exists_smul_neg_iff {n : ℕ} (w : Fin n → ℚ) {c : ℚ} (hc : 0 < c) :
    (∃ i, c * w i < 0) ↔ ∃ i, w i < 0 := by
  constructor
  · rintro ⟨i, hi⟩
    rcases mul_neg_iff.1 hi with ⟨-, h⟩ | ⟨h, -⟩
    · exact ⟨i, h⟩
    · exact absurd hc (not_lt.2 h.le)
  · rintro ⟨i, hi⟩
    exact ⟨i, mul_neg_of_pos_of_neg hc hi⟩

/-- C8: multiplying the observation weight vector by a constant `c > 0` (and
in particular supplying a constant weight vector `c`, versus omitting the
weights) yields exactly the same result — the same ATT, the same bootstrap
draws and influence function, and, the influence function and estimate being
unchanged, the same analytic standard error and confidence bounds — because
the weights are renormalized to mean 1 on input (line 111). -/
theorem c8_weight_scale_invariance {n k : ℕ} (y post d : Fin n → ℚ)
    (covariates : Option (Fin n → Fin k → ℚ)) (w : Fin n → ℚ) (c : ℚ)
    (boot : Bool) (boot_type : BootType) (nboot : ℕ) (influence_func : Bool)
    (trim_level : ℚ) (fit : (Fin n → ℚ) → Except Unit (PScoreFit n k))
    (matinv : (Fin k → Fin k → ℚ) → Fin k → Fin k → ℚ)
    (mboot : (Fin n → ℚ) → ℕ → List ℚ) (wboot : (Fin n → ℚ) → ℕ → ℚ → List ℚ)
    (hc : 0 < c) :
    std_ipw_did_rc y post d covariates (some fun i => c * w i) boot boot_type
        nboot influence_func trim_level fit matinv mboot wboot =
      std_ipw_did_rc y post d covariates (some w) boot boot_type nboot
        influence_func trim_level fit matinv mboot wboot ∧
    std_ipw_did_rc y post d covariates (some fun _ => c) boot boot_type nboot
        influence_func trim_level fit matinv mboot wboot =
      std_ipw_did_rc y post d covariates none boot boot_type nboot
        influence_func trim_level fit matinv mboot wboot ∧
    (∀ ps : Fin n → ℚ,
      se_att (attInfFrom y post d (covariates.getD fun _ _ => 1)
          (normalizeWeights fun i => c * w i) ps trim_level matinv) =
        se_att (attInfFrom y post d (covariates.getD fun _ _ => 1)
          (normalizeWeights w) ps trim_level matinv) ∧
      uci (attFrom y post d (normalizeWeights fun i => c * w i) ps trim_level)
          (attInfFrom y post d (covariates.getD fun _ _ => 1)
            (normalizeWeights fun i => c * w i) ps trim_level matinv) =
        uci (attFrom y post d (normalizeWeights w) ps trim_level)
          (attInfFrom y post d (covariates.getD fun _ _ => 1)
            (normalizeWeights w) ps trim_level matinv) ∧
      lci (attFrom y post d (normalizeWeights fun i => c * w i) ps trim_level)
          (attInfFrom y post d (covariates.getD fun _ _ => 1)
            (normalizeWeights fun i => c * w i) ps trim_level matinv) =
        lci (attFrom y post d (normalizeWeights w) ps trim_level)
          (attInfFrom y post d (covariates.getD fun _ _ => 1)
            (normalizeWeights w) ps trim_level matinv)) := by
  refine ⟨?_, ?_, ?_⟩
  · rw [std_ipw_did_rc_some, std_ipw_did_rc_some]
    by_cases hneg : ∃ i, w i < 0
    · rw [if_pos ((exists_smul_neg_iff w hc).2 hneg), if_pos hneg]
    · rw [if_neg (fun h => hneg ((exists_smul_neg_iff w hc).1 h)), if_neg hneg,
        normalizeWeights_smul w c hc.ne']
  · rw [std_ipw_did_rc_some, std_ipw_did_rc_none,
      if_neg (fun h => by rcases h with ⟨i, hi⟩; exact absurd hc (not_lt.2 hi.le)),
      normalizeWeights_const c hc.ne']
  · intro ps
    rw [normalizeWeights_smul w c hc.ne']
    exact ⟨rfl, rfl, rfl⟩

/-- Witness for C8 at a concrete input: doubling the weight vector `(1, 3)`
leaves the returned result unchanged. -/
theorem c8_weight_scale_invariance_witness :
    (0 : ℚ) < 2 ∧
      std_ipw_did_rc (n := 2) (k := 1) ![4, 6] ![0, 1] ![1, 0]
          (some fun _ _ => 1) (some fun i => 2 * (![1, 3] : Fin 2 → ℚ) i)
          false .weighted 999 false (995 / 1000)
          (fun _ => .ok { params := fun _ => some 0, converged := true, ps_fit := fun _ => 1 / 2 })
          (fun M => M) (fun _ _ => []) (fun _ _ _ => []) =
        std_ipw_did_rc (n := 2) (k := 1) ![4, 6] ![0, 1] ![1, 0]
          (some fun _ _ => 1) (some ![1, 3]) false .weighted 999 false (995 / 1000)
          (fun _ => .ok { params := fun _ => some 0, converged := true, ps_fit := fun _ => 1 / 2 })
          (fun M => M) (fun _ _ => []) (fun _ _ _ => []) :=
  ⟨by norm_num,
    (c8_weight_scale_invariance _ _ _ _ _ _ _ _ _ _ _ _ _ _ _ (by norm_num)).1⟩

/-- With at least one unit, the all-ones weight vector is its own mean-1
normalization. -/
theorem normalizeWeights_one {n : ℕ} (hn : (n : ℚ) ≠ 0) :
    normalizeWeights (fun _ : Fin n => (1 : ℚ)) = fun _ => 1 := by
  funext i
  unfold normalizeWeights mean
  rw [Finset.sum_const, Finset.card_univ, Fintype.card_fin]
  simp [div_self hn]

/-- With at least one unit, the Hajek mean is the ratio of the plain sums. -/
theorem hajekMean_eq_sum_div_sum {n : ℕ} (hn : (n : ℚ) ≠ 0) (w y : Fin n → ℚ) :
    hajekMean w y = (∑ i, w i * y i) / (∑ i, w i) := by
  unfold hajekMean mean
  by_cases h : (∑ i, w i) = 0
  · rw [h]
    simp
  · field_simp

/-- A cell whose weights are a nonzero constant multiple of a selector has the
selector's unweighted cell mean as its Hajek component estimate. -/
theorem att_cell_of_scaled_selector {n : ℕ} (hn : (n : ℚ) ≠ 0) {ρ : ℚ}
    (hρ : ρ ≠ 0) (w sel y : Fin n → ℚ) (hw : ∀ i, w i = ρ * sel i) :
    att_cell w y = cellMean y sel := by
  rw [att_cell_eq_hajekMean, hajekMean_eq_sum_div_sum hn]
  unfold cellMean
  have hnum : (∑ i, w i * y i) = ρ * ∑ i, sel i * y i := by
    rw [Finset.mul_sum]
    exact Finset.sum_congr rfl fun i _ => by rw [hw i]; ring
  have hden : (∑ i, w i) = ρ * ∑ i, sel i := by
    rw [Finset.mul_sum]
    exact Finset.sum_congr rfl fun i _ => hw i
  rw [hnum, hden]
  exact mul_div_mul_left _ _ hρ

/-- With unit weights and a constant fitted propensity `q` strictly between 0
and 1 and strictly below the trim level, no unit is trimmed, the constant
control odds cancel in the Hajek ratios, and the ATT reduces exactly to the
simple difference-in-differences of unweighted cell means. -/
theorem attFrom_constant_ps {n : ℕ} (y post d : Fin n → ℚ) (q trim_level : ℚ)
    (hn : (n : ℚ) ≠ 0) (hq0 : 0 < q) (hq1 : q < 1) (hqτ : q < trim_level) :
    attFrom y post d (fun _ => 1) (fun _ => q) trim_level = simpleDiD y d post := by
  have htrim : trim_ps d (fun _ => q) trim_level = fun _ => 1 := by
    funext j
    simp only [trim_ps]
    split
    · simp [hqτ]
    · rfl
  have hρ : q / (1 - q) ≠ 0 := div_ne_zero hq0.ne' (by linarith)
  simp only [attFrom, simpleDiD]
  rw [htrim]
  rw [att_cell_of_scaled_selector hn one_ne_zero _ (fun i => d i * post i) y
      (fun i => by simp only [w_treat_post]; ring),
    att_cell_of_scaled_selector hn one_ne_zero _ (fun i => d i * (1 - post i)) y
      (fun i => by simp only [w_treat_pre]; ring),
    att_cell_of_scaled_selector hn hρ _ (fun i => (1 - d i) * post i) y
      (fun i => by simp only [w_cont_post]; ring),
    att_cell_of_scaled_selector hn hρ _ (fun i => (1 - d i) * (1 - post i)) y
      (fun i => by simp only [w_cont_pre]; ring)]

/-- C9 counterexample: eight units, intercept-only covariates, uniform
weights, half of the sample treated, trim level one half.  The intercept-only
logistic MLE fits the constant propensity `1/2`, which is not below the trim
level, so every control unit is trimmed away: the returned ATT is the
treated-only difference `2`, while the simple difference-in-differences of
cell means is `-8`.  The claimed equality therefore fails on a valid input. -/
theorem c9_counterexample :
    std_ipw_did_rc (n := 8) ![0, 2, 0, 2, 0, 10, 0, 10] ![0, 1, 0, 1, 0, 1, 0, 1]
        ![1, 1, 1, 1, 0, 0, 0, 0] (some fun _ _ => 1) none false .weighted 999
        false (1 / 2) (interceptLogitFit ![1, 1, 1, 1, 0, 0, 0, 0]) (fun M => M)
        (fun _ _ => []) (fun _ _ _ => []) =
      .ok { att := 2, boots := none, att_inf_func := none } ∧
    simpleDiD ![0, 2, 0, 2, 0, 10, 0, 10] ![1, 1, 1, 1, 0, 0, 0, 0]
        ![0, 1, 0, 1, 0, 1, 0, 1] = -8 ∧
    (2 : ℚ) ≠ -8 := by
  refine ⟨?_, ?_, by norm_num⟩
  · rw [std_ipw_did_rc_none,
      std_ipw_core_eq_ok _ _ _ _ _ _ _ _ _ _ _ _ _ _
        ⟨0, by norm_num⟩ ⟨4, by norm_num⟩ ⟨1, by norm_num⟩ ⟨0, by norm_num⟩
        _ rfl (by simp [interceptLogitFit])]
    norm_num [interceptLogitFit, attFrom, att_cell, eta, mean, w_treat_pre,
      w_treat_post, w_cont_pre, w_cont_post, trim_ps, clipPS, normalizeWeights,
      Fin.sum_univ_succ, min_def, max_def]
  · norm_num [simpleDiD, cellMean, Fin.sum_univ_succ]

/-- C9 amended: with a single intercept covariate column (supplied explicitly
or synthesized when covariates are omitted) and uniform weights, the ATT
estimate equals the simple difference-in-differences of unweighted cell means,
provided the clipped fitted propensity — the constant weighted treated share
produced by the intercept-only logistic MLE — lies strictly below the trim
level, so that no control unit is trimmed away. -/
theorem c9_intercept_only_is_did_of_means {n : ℕ} (y post d : Fin n → ℚ)
    (boot_type : BootType) (nboot : ℕ) (trim_level : ℚ)
    (matinv : (Fin 1 → Fin 1 → ℚ) → Fin 1 → Fin 1 → ℚ)
    (mboot : (Fin n → ℚ) → ℕ → List ℚ) (wboot : (Fin n → ℚ) → ℕ → ℚ → List ℚ)
    (h1 : ∃ i, d i = 1) (h2 : ∃ i, d i = 0) (h3 : ∃ i, post i = 1)
    (h4 : ∃ i, post i = 0)
    (htrim : clipPS ((∑ i, d i) / n) < trim_level) :
    std_ipw_did_rc y post d (some fun _ _ => 1) none false boot_type nboot
        false trim_level (interceptLogitFit d) matinv mboot wboot =
      .ok { att := simpleDiD y d post, boots := none, att_inf_func := none } ∧
    std_ipw_did_rc y post d none none false boot_type nboot false trim_level
        (interceptLogitFit d) matinv mboot wboot =
      .ok { att := simpleDiD y d post, boots := none, att_inf_func := none } := by
  have hn : (n : ℚ) ≠ 0 := by
    rcases h1 with ⟨i, -⟩
    exact_mod_cast Nat.cast_ne_zero.2 i.pos.ne'
  have hone := normalizeWeights_one hn
  have hfit : interceptLogitFit d (normalizeWeights fun _ => 1) =
      .ok { params := fun _ => some 0, converged := true,
            ps_fit := fun _ => (∑ i, d i) / n } := by
    rw [hone]
    unfold interceptLogitFit
    norm_num [Finset.sum_const, Finset.card_univ]
  have main : ∀ X : Fin n → Fin 1 → ℚ,
      std_ipw_core y post d X (normalizeWeights fun _ => 1) false boot_type
          nboot false trim_level (interceptLogitFit d) matinv mboot wboot =
        .ok { att := simpleDiD y d post, boots := none, att_inf_func := none } := by
    intro X
    rw [std_ipw_core_eq_ok _ _ _ _ _ _ _ _ _ _ _ _ _ _ h1 h2 h3 h4 _ hfit
      (by simp)]
    rw [hone]
    rw [attFrom_constant_ps y post d _ trim_level hn (clipPS_pos _)
      (clipPS_lt_one _) htrim]
    simp
  exact ⟨by rw [std_ipw_did_rc_none]; exact main _, by rw [std_ipw_did_rc_none]; exact main _⟩

/-- Witness for C9 at a concrete input: four units, one per group-period cell,
uniform weights, intercept-only covariates; the fitted treated share is one
half, below the default trim level, and the returned ATT is the simple
difference-in-differences of cell means. -/
theorem c9_intercept_only_is_did_of_means_witness :
    std_ipw_did_rc (n := 4) ![1, 3, 2, 9] ![0, 1, 0, 1] ![1, 1, 0, 0]
        (some fun _ _ => 1) none false .weighted 999 false (995 / 1000)
        (interceptLogitFit ![1, 1, 0, 0]) (fun M => M) (fun _ _ => [])
        (fun _ _ _ => []) =
      .ok { att := simpleDiD ![1, 3, 2, 9] ![1, 1, 0, 0] ![0, 1, 0, 1],
            boots := none, att_inf_func := none } := by
  refine (c9_intercept_only_is_did_of_means _ _ _ _ _ _ _ _ _
    ⟨0, by norm_num⟩ ⟨2, by norm_num⟩ ⟨1, by norm_num⟩ ⟨0, by norm_num⟩ ?_).1
  norm_num [clipPS, Fin.sum_univ_succ, min_def, max_def]

end StdIPW
